import Mathlib

/-!
Verification of the pegboard runner WebSocket gateway
(src/packages/core/pegboard-runner-ws/src/lib.rs) against its
natural-language specification.

The Rust source is shallowly embedded: identifiers follow the source where
Lean allows it, machine integers become Nat with explicit bounds where
overflow matters, fallible calls return Except, and the external
collaborators (codec, KV backend, workflow engine, allocation index) are
parameters of an environment record, so every definition stays executable.
-/

/-- Runner ids are opaque 128-bit identifiers in the source (`gas::prelude::Id`);
only equality matters here, so they are modelled as Nat. -/
abbrev RunnerId := Nat

/-- A live connection object identity (an `Arc<Connection>` in the source);
only identity matters for the registry model. -/
abbrev ConnId := Nat

/-- The (group, code) pair a `RivetError` carries (rivet_error crate). -/
structure RivetErrorT where
  group : String
  code : String
deriving DecidableEq

/-- Modelled from the spec: the generic internal-error constant
(`rivet_error::INTERNAL_ERROR`, outside src/). The spec only says any
unexpected error "is mapped to a generic internal-error close code"; the
concrete group and code are not in the staged sources, so a representative
non-`ws` pair is used. No theorem below depends on the exact strings beyond
the pair being distinct from ("ws", "connection_closed"). -/
def INTERNAL_ERROR : RivetErrorT := { group := "core", code := "internal_error" }

/-- An `anyhow::Error` as far as `err_to_close_frame` can observe it:
either its chain contains a `RivetError` (the first one found by
`err.chain().find_map(..)`), or it does not (`bail!` format-string errors,
raw codec errors, transport errors, `TryFromIntError`). -/
inductive GwErr where
  | rivet (re : RivetErrorT) (detail : String)
  | plain (msg : String)
deriving DecidableEq

/-- The `WsError` enum of the source (group "ws"). -/
inductive WsError where
  | newRunnerConnected
  | connectionClosed
  | eviction
  | timedOutWaitingForInit
  | invalidInitialPacket (reason : String)
  | invalidPacket (detail : String)
  | invalidUrl (detail : String)
deriving DecidableEq

/-- The `#[error("...")]` code string of each `WsError` variant. -/
def WsError.code : WsError → String
  | .newRunnerConnected => "new_runner_connected"
  | .connectionClosed => "connection_closed"
  | .eviction => "eviction"
  | .timedOutWaitingForInit => "timed_out_waiting_for_init"
  | .invalidInitialPacket _ => "invalid_initial_packet"
  | .invalidPacket _ => "invalid_packet"
  | .invalidUrl _ => "invalid_url"

/-- The detail message carried by the variant, if any. -/
def WsError.detail : WsError → String
  | .invalidInitialPacket r => r
  | .invalidPacket d => d
  | .invalidUrl d => d
  | _ => ""

/-- `WsError::X.build()`: an error whose chain carries the ("ws", code) RivetError. -/
def WsError.build (e : WsError) : GwErr :=
  .rivet { group := "ws", code := e.code } e.detail

/-- UTF-8 byte length of a character list (sum of per-character sizes). -/
def byteLen (l : List Char) : Nat := (l.map Char.utf8Size).sum

/-- Longest character-list whose UTF-8 encoding fits in `budget` bytes,
taking characters from the front. -/
def takeBytes : List Char → Nat → List Char
  | [], _ => []
  | c :: cs, budget =>
    if c.utf8Size ≤ budget then c :: takeBytes cs (budget - c.utf8Size) else []

/-- Modelled from the spec: `util::safe_slice(s, 0, len)` (rivet util crate,
outside src/), which the spec describes as truncation "to ≤123 bytes on a
character-safe boundary": the longest character-aligned front part of `s`
whose UTF-8 encoding is at most `len` bytes. -/
def safe_slice (s : String) (len : Nat) : String :=
  { data := takeBytes s.data len }

/-- A WebSocket close frame: numeric close code and reason text.
`tungstenite` CloseCode::Normal is 1000 and CloseCode::Error is 1011. -/
structure CloseFrameT where
  code : Nat
  reason : String
deriving DecidableEq

/-- `err_to_close_frame` (lib.rs lines 831-852): find the RivetError in the
chain (or fall back to INTERNAL_ERROR), use close code Normal (1000) exactly
for ("ws", "connection_closed") and Error (1011) otherwise, and use the
UTF-8 string "group.code" truncated to at most 123 bytes as the reason. -/
def err_to_close_frame (err : GwErr) : CloseFrameT :=
  let rivet_err := match err with
    | .rivet re _ => re
    | .plain _ => INTERNAL_ERROR
  let code : Nat :=
    if rivet_err.group = "ws" ∧ rivet_err.code = "connection_closed" then 1000 else 1011
  let reason := safe_slice (rivet_err.group ++ "." ++ rivet_err.code) 123
  { code := code, reason := reason }

/-! ## Protocol messages

The `rivet_runner_protocol` message types, reduced to the structure the
gateway inspects: keys, values and metadata are opaque (Nat), and the
`ToServer` variants other than Ping, KvRequest and Init are collapsed into
one forwarded constructor. -/

/-- A KV request body (`KvRequestData`). The `limit` field of a List request
is modelled from the spec as a signed protocol integer converted "to the
backend's width or the request is rejected as a parse error"; the concrete
protocol type is outside src/. -/
inductive KvRequestData where
  | get (keys : List Nat)
  | list (query : Nat) (reverse : Option Bool) (limit : Option Int)
  | put (keys : List Nat) (values : List Nat)
  | delete (keys : List Nat)
  | drop
deriving DecidableEq

/-- `ToServerKvRequest`. -/
structure KvRequest where
  requestId : Nat
  actorId : String
  data : KvRequestData
deriving DecidableEq

/-- The deserialized `ToServer` message, as `handle_messages` and
`build_connection` match on it. -/
inductive ToServer where
  | init (name : String) (version : String) (totalSlots : Nat)
  | toServerPing (ts : Nat)
  | toServerKvRequest (req : KvRequest)
  | otherVariant (tag : Nat)
deriving DecidableEq

/-- `KvResponseData` of the `ToClient` protocol. -/
inductive KvResponseData where
  | getResp (keys values metadata : List Nat)
  | listResp (keys values metadata : List Nat)
  | putResp
  | deleteResp
  | dropResp
  | errorResp (message : String)
deriving DecidableEq

/-- `ToClientKvResponse`. -/
structure ToClientKvResponse where
  requestId : Nat
  data : KvResponseData
deriving DecidableEq

/-- A `ToClient` message written to the socket. -/
inductive ToClient where
  | kvResponse (resp : ToClientKvResponse)
  | command (payload : Nat)
deriving DecidableEq

/-- An inbound transport message (`tungstenite::Message`): Binary, Ping,
Close, and the rest (Text/Pong/Frame) collapsed into `other`. -/
inductive WsMessage where
  | binary (buf : List Nat)
  | transportPing
  | close
  | other
deriving DecidableEq

/-- One row of an `actor::get_runner` result. -/
structure ActorInfo where
  runnerId : RunnerId
deriving DecidableEq

/-- `RunnerEligibility` of the allocation index. -/
inductive Eligibility where
  | eligible
  | reEligible
  | expired
deriving DecidableEq

/-- One notification returned by `update_alloc_idx`. -/
structure Notification where
  runnerId : RunnerId
  workflowId : Nat
  eligibility : Eligibility
deriving DecidableEq

/-- An action on the allocation index. -/
inductive AllocAction where
  | updatePing (rtt : Nat)
  | clearIdx
deriving DecidableEq

/-- The gateway-side `Connection` state (without the sink): owning workflow
id, negotiated protocol version, and the last observed RTT (an `AtomicU32`
in the source; the relaxed memory ordering is not modelled, only the stored
value). -/
structure Connection where
  workflowId : Nat
  protocolVersion : Nat
  lastRtt : Nat
deriving DecidableEq

/-- The external collaborators as the gateway calls them, each an abstract
function: the versioned codec, actor-id parsing, the actor lookup op, the
KV backend, workflow signalling, namespace resolution, the runner-by-key op,
the allocation index and the workflow engine. An `Except.error` models a
Rust `Err` whose chain carries no RivetError (ops, codec, transport). -/
structure Env where
  now : Nat
  decode : Nat → List Nat → Except String ToServer
  serialize : Nat → ToClient → Except String Unit
  parseId : String → Except String Nat
  getRunnerActors : Nat → Except String (List ActorInfo)
  kvGet : Nat → List Nat → Except String (List Nat × List Nat × List Nat)
  kvList : Nat → Nat → Bool → Option Nat → Except String (List Nat × List Nat × List Nat)
  kvPut : Nat → List Nat → List Nat → Except String Unit
  kvDelete : Nat → List Nat → Except String Unit
  kvDropAll : Nat → Except String Unit
  convertSignal : ToServer → Except String Unit
  resolveNamespace : String → Except String (Option Nat)
  getByKey : Nat → String → String → Except String (Option RunnerId)
  updateAllocIdx : List (RunnerId × AllocAction) → Except String (List Notification)
  newId : RunnerId
  dispatchWorkflow : RunnerId → Except String Nat
  sendInitSignal : Nat → Except String Unit

/-- Observable effects of one read-loop step: messages written to the
socket, KV backend calls performed, and `ToServer` packets forwarded to the
runner workflow as signals. -/
structure StepEffects where
  sent : List ToClient := []
  kvOps : List (Nat × KvRequestData) := []
  signals : List ToServer := []
deriving DecidableEq

/-- Outcome of processing one inbound message: the loop continues with an
updated connection, or terminates with the propagated error. Effects that
happened before the failure are kept. -/
inductive StepOutcome where
  | cont (conn : Connection) (eff : StepEffects)
  | term (err : GwErr) (eff : StepEffects)
deriving DecidableEq

/-- Modelled from the spec: the conversion of a List request limit to the
KV backend width (`body.limit.map(TryInto::try_into).transpose()?`). The
spec says the limit "is converted to the backend's width or the request is
rejected as a parse error", so the conversion is fallible; a negative
protocol value has no backend-width image. -/
def limitToWidth (i : Int) : Except String Nat :=
  if i < 0 then .error "out of range integral type conversion attempted"
  else .ok i.toNat

/-- `body.limit.map(TryInto::try_into).transpose()`. -/
def limitTransposed : Option Int → Except String (Option Nat)
  | none => .ok none
  | some i => (limitToWidth i).map some

/-- Serialize a KV response at the connection protocol version and send it
through
the write lock (`packet.serialize(..)?` then `conn.tx.lock().await.send(..)?`).
A failure of either propagates out of the loop as a plain error; `ops`
records backend calls already performed before the send. -/
def sendKvResponse (env : Env) (conn : Connection) (resp : ToClientKvResponse)
    (ops : List (Nat × KvRequestData)) : StepOutcome :=
  match env.serialize conn.protocolVersion (.kvResponse resp) with
  | .error e => .term (.plain e) { kvOps := ops }
  | .ok _ => .cont conn { sent := [.kvResponse resp], kvOps := ops }

/-- The `ToServer::ToServerKvRequest` arm of `handle_messages`
(lib.rs lines 424-618): parse the actor id, resolve its runner, honor the
request only when that runner is the connection's, dispatch to the backend
and answer with the matching response, turning backend errors into
`KvErrorResponse`. -/
def handleKvRequest (env : Env) (runnerId : RunnerId) (conn : Connection)
    (req : KvRequest) : StepOutcome :=
  match env.parseId req.actorId with
  | .error err =>
    sendKvResponse env conn { requestId := req.requestId, data := .errorResp err } []
  | .ok actorId =>
    match env.getRunnerActors actorId with
    | .error e => .term (.plain e) {}
    | .ok actors =>
      let actorBelongs := (actors.head?.map fun x => x.runnerId == runnerId).getD false
      if !actorBelongs then
        sendKvResponse env conn
          { requestId := req.requestId
            data := .errorResp "given actor does not belong to runner" } []
      else
        match req.data with
        | .get keys =>
          let res := env.kvGet actorId keys
          sendKvResponse env conn
            { requestId := req.requestId
              data := match res with
                | .ok (keys, values, metadata) => .getResp keys values metadata
                | .error err => .errorResp err }
            [(actorId, .get keys)]
        | .list query reverse limit =>
          match limitTransposed limit with
          | .error e => .term (.plain e) {}
          | .ok lim =>
            let res := env.kvList actorId query (reverse.getD false) lim
            sendKvResponse env conn
              { requestId := req.requestId
                data := match res with
                  | .ok (keys, values, metadata) => .listResp keys values metadata
                  | .error err => .errorResp err }
              [(actorId, .list query reverse limit)]
        | .put keys values =>
          let res := env.kvPut actorId keys values
          sendKvResponse env conn
            { requestId := req.requestId
              data := match res with
                | .ok _ => .putResp
                | .error err => .errorResp err }
            [(actorId, .put keys values)]
        | .delete keys =>
          let res := env.kvDelete actorId keys
          sendKvResponse env conn
            { requestId := req.requestId
              data := match res with
                | .ok _ => .deleteResp
                | .error err => .errorResp err }
            [(actorId, .delete keys)]
        | .drop =>
          let res := env.kvDropAll actorId
          sendKvResponse env conn
            { requestId := req.requestId
              data := match res with
                | .ok _ => .dropResp
                | .error err => .errorResp err }
            [(actorId, .drop)]

/-- One iteration of the `handle_messages` read loop (lib.rs lines 404-626):
transport pings are skipped, a peer Close bails with a plain format-string
error, unexpected kinds are logged and skipped, and a binary frame is
decoded at the connection version (a raw codec error propagates unwrapped).
A decoded Ping stores `now().saturating_sub(ts).try_into()?` into
`last_rtt` (u32); a KvRequest goes to `handleKvRequest`; everything else is
converted and forwarded to the runner workflow as a signal. -/
def handleMessage (env : Env) (runnerId : RunnerId) (conn : Connection)
    (msg : WsMessage) : StepOutcome :=
  match msg with
  | .transportPing => .cont conn {}
  | .close => .term (.plain ("socket closed " ++ toString runnerId)) {}
  | .other => .cont conn {}
  | .binary buf =>
    match env.decode conn.protocolVersion buf with
    | .error e => .term (.plain e) {}
    | .ok packet =>
      match packet with
      | .toServerPing ts =>
        let rtt := env.now - ts
        if rtt < 4294967296 then .cont { conn with lastRtt := rtt } {}
        else .term (.plain "out of range integral type conversion attempted") {}
      | .toServerKvRequest req => handleKvRequest env runnerId conn req
      | packet =>
        match env.convertSignal packet with
        | .error e => .term (.plain e) {}
        | .ok _ => .cont conn { signals := [packet] }

/-- The whole read loop over a finite inbound stream: the `Result` it exits
with (it never returns `Ok`: end-of-stream also bails) and everything sent. -/
def handle_messages (env : Env) (runnerId : RunnerId) :
    Connection → List WsMessage → Except GwErr Unit × List ToClient
  | _, [] => (.error (.plain ("stream closed " ++ toString runnerId)), [])
  | conn, msg :: rest =>
    match handleMessage env runnerId conn msg with
    | .term e eff => (.error e, eff.sent)
    | .cont conn eff =>
      let r := handle_messages env runnerId conn rest
      (r.1, eff.sent ++ r.2)

/-- The connection state after processing a prefix of the inbound stream,
`none` once the loop has terminated. -/
def runSteps (env : Env) (runnerId : RunnerId) :
    Connection → List WsMessage → Option Connection
  | conn, [] => some conn
  | conn, msg :: rest =>
    match handleMessage env runnerId conn msg with
    | .cont conn _ => runSteps env runnerId conn rest
    | .term _ _ => none

/-- The error `handle_connection` encodes into the final close frame
(lib.rs lines 224-232 and 252-256): the loop error if there is one,
`WsError::ConnectionClosed` for an `Ok` return. -/
def connectionCloseFrame (res : Except GwErr Unit) : CloseFrameT :=
  err_to_close_frame (match res with
    | .error e => e
    | .ok _ => WsError.connectionClosed.build)

/-! ## Handshake -/

/-- The parsed upgrade URL query (`UrlData`). -/
structure UrlData where
  protocolVersion : Nat
  nsName : String
  runnerKey : String
deriving DecidableEq

/-- What `tokio::time::timeout(5s, rx.next()).await` produced for the init
frame: the timeout fired, the stream ended (`None`), the transport read
errored (`msg?`), or one message arrived. -/
inductive HsFirst where
  | timeout
  | streamEnd
  | recvErr (e : String)
  | msg (m : WsMessage)
deriving DecidableEq

/-- A write effect of the handshake, in program order. -/
inductive HsEffect where
  | updateAllocIdx (runners : List (RunnerId × AllocAction))
  | dispatchWorkflow (runnerId : RunnerId) (namespaceId : Nat) (name key : String)
  | signalToWorkflow (workflowId : Nat)
deriving DecidableEq

/-- The expiry test of the handshake pre-ping
(`update_ping_res.notifications.into_iter().next().map(|notif|
matches!(notif.eligibility, RunnerEligibility::Expired)).unwrap_or_default()`). -/
def notifExpired (notifications : List Notification) : Bool :=
  (notifications.head?.map fun notif =>
    match notif.eligibility with
    | .expired => true
    | _ => false).getD false

/-- Modelled from the spec: `namespace::errors::Namespace::NotFound.build()`
(namespace crate, outside src/); the spec says namespace NotFound "is
surfaced as that domain's error, not a `ws` one". -/
def namespaceNotFound : GwErr :=
  .rivet { group := "namespace", code := "not_found" } "namespace not found"

/-- `build_connection` (lib.rs lines 262-395): resolve the namespace, await
the init frame under the 5-second timeout, demand a binary `ToServer::Init`,
resolve the runner identity (pre-pinging the allocation index when a runner
exists for the key, minting a fresh id when none exists or the pre-ping
reports `Expired`), dispatch the unique runner workflow, and forward the
init packet to it. Returns the result together with the ordered write
effects performed, which are kept also on a failing path. -/
def build_connection (env : Env) (url : UrlData) (first : HsFirst) :
    Except GwErr (RunnerId × Nat × Connection) × List HsEffect :=
  match env.resolveNamespace url.nsName with
  | .error e => (.error (.plain e), [])
  | .ok none => (.error namespaceNotFound, [])
  | .ok (some namespaceId) =>
    match first with
    | .timeout => (.error (WsError.timedOutWaitingForInit.build), [])
    | .streamEnd => (.error (WsError.connectionClosed.build), [])
    | .recvErr e => (.error (.plain e), [])
    | .msg m =>
      match m with
      | .close => (.error (WsError.connectionClosed.build), [])
      | .transportPing =>
        (.error ((WsError.invalidInitialPacket "must be a binary blob").build), [])
      | .other =>
        (.error ((WsError.invalidInitialPacket "must be a binary blob").build), [])
      | .binary buf =>
        match env.decode url.protocolVersion buf with
        | .error e => (.error ((WsError.invalidPacket e).build), [])
        | .ok packet =>
          match packet with
          | .toServerPing _ | .toServerKvRequest _ | .otherVariant _ =>
            (.error ((WsError.invalidInitialPacket "must be `ToServer::Init`").build), [])
          | .init name _version _totalSlots =>
            match env.getByKey namespaceId name url.runnerKey with
            | .error e => (.error (.plain e), [])
            | .ok found =>
              let staged : Except GwErr RunnerId × List HsEffect :=
                match found with
                | some runner =>
                  match env.updateAllocIdx [(runner, .updatePing 0)] with
                  | .error e =>
                    (.error (.plain e), [.updateAllocIdx [(runner, .updatePing 0)]])
                  | .ok notifications =>
                    let expired := notifExpired notifications
                    (.ok (if expired then env.newId else runner),
                      [.updateAllocIdx [(runner, .updatePing 0)]])
                | none => (.ok env.newId, [])
              match staged with
              | (.error e, eff) => (.error e, eff)
              | (.ok runnerId, eff) =>
                match env.dispatchWorkflow runnerId with
                | .error e =>
                  (.error (.plain e),
                    eff ++ [.dispatchWorkflow runnerId namespaceId name url.runnerKey])
                | .ok workflowId =>
                  match env.sendInitSignal workflowId with
                  | .error e =>
                    (.error (.plain e),
                      eff ++ [.dispatchWorkflow runnerId namespaceId name url.runnerKey,
                        .signalToWorkflow workflowId])
                  | .ok _ =>
                    (.ok (runnerId, workflowId,
                        { workflowId := workflowId
                          protocolVersion := url.protocolVersion
                          lastRtt := 0 }),
                      eff ++ [.dispatchWorkflow runnerId namespaceId name url.runnerKey,
                        .signalToWorkflow workflowId])

/-- A registry-visible effect of the accepting task (`handle_connection`,
lib.rs lines 189-222): on a failed handshake a close frame encoding the
error is sent and nothing is inserted; on success the connection is
installed into the registry. -/
inductive ConnEffect where
  | closeFrame (f : CloseFrameT)
  | registryInsert (runnerId : RunnerId)
deriving DecidableEq

/-- The effects of `handle_connection` up to (and including) installation. -/
def handshakePhase (env : Env) (url : UrlData) (first : HsFirst) : List ConnEffect :=
  match (build_connection env url first).1 with
  | .error e => [.closeFrame (err_to_close_frame e)]
  | .ok (runnerId, _, _) => [.registryInsert runnerId]

/-! ## Connection registry and command fan-in

The registry (`Connections = HashMap<Id, Arc<Connection>>` behind an
`RwLock`) is modelled as an association list, and its concurrent users as a
sequence of atomic actions: the source performs the insert-and-close-old of
`handle_connection` while holding the registry write lock, and the command
fan-in (`msg_thread_inner`) sends while holding the read lock, so the lock
serializes these critical sections and each becomes one action of the
trace. The emitted close and command frames are collected in an ordered
log, which mirrors the total order of writes on any one sink (each send
happens under the per-connection tx mutex inside the same critical section). -/

/-- `HashMap::get` on the registry. -/
def lookupConn : List (RunnerId × ConnId) → RunnerId → Option ConnId
  | [], _ => none
  | (r, c) :: rest, target => if r = target then some c else lookupConn rest target

/-- `HashMap::insert`: replace the entry for the key or append a new one. -/
def insertConn : List (RunnerId × ConnId) → RunnerId → ConnId → List (RunnerId × ConnId)
  | [], r, c => [(r, c)]
  | (r, c) :: rest, target, conn =>
    if r = target then (target, conn) :: rest else (r, c) :: insertConn rest target conn

/-- `HashMap::remove`. -/
def removeConn : List (RunnerId × ConnId) → RunnerId → List (RunnerId × ConnId)
  | [], _ => []
  | (r, c) :: rest, target => if r = target then rest else (r, c) :: removeConn rest target

/-- A frame event in the outbound log. -/
inductive RegEvent where
  | closed (c : ConnId) (frame : CloseFrameT)
  | command (c : ConnId) (payload : Nat)
deriving DecidableEq

/-- One atomic critical section over the registry. -/
inductive RegAction where
  | install (r : RunnerId) (c : ConnId)
  | sendCommand (r : RunnerId) (payload : Nat)
  | closeWs (r : RunnerId)
  | remove (r : RunnerId)
deriving DecidableEq

/-- Registry contents plus the outbound frame log. -/
structure RegState where
  conns : List (RunnerId × ConnId)
  log : List RegEvent
deriving DecidableEq

/-- The close frame the displaced connection receives
(`err_to_close_frame(WsError::NewRunnerConnected.build())`, lib.rs line 215). -/
def newRunnerClosedFrame : CloseFrameT := err_to_close_frame (WsError.newRunnerConnected.build)

/-- The close frame an evicted connection receives (lib.rs line 780). -/
def evictionFrame : CloseFrameT := err_to_close_frame (WsError.eviction.build)

/-- One atomic action: `install` is the insert-and-close-old block of
`handle_connection` (run under the registry write lock), `sendCommand` and
`closeWs` are the two arms of `msg_thread_inner` (run under the read lock,
dropping the frame when the runner is not connected), `remove` is the
cleanup removal. -/
def regStep (s : RegState) : RegAction → RegState
  | .install r c =>
    match lookupConn s.conns r with
    | some old =>
      { conns := insertConn s.conns r c
        log := s.log ++ [.closed old newRunnerClosedFrame] }
    | none => { conns := insertConn s.conns r c, log := s.log }
  | .sendCommand r payload =>
    match lookupConn s.conns r with
    | some c => { s with log := s.log ++ [.command c payload] }
    | none => s
  | .closeWs r =>
    match lookupConn s.conns r with
    | some c => { s with log := s.log ++ [.closed c evictionFrame] }
    | none => s
  | .remove r => { s with conns := removeConn s.conns r }

/-- Run a sequence of critical sections from a state. -/
def regRunFrom (s : RegState) (acts : List RegAction) : RegState := acts.foldl regStep s

/-- Run from the empty registry the service starts with. -/
def regRun (acts : List RegAction) : RegState := regRunFrom { conns := [], log := [] } acts

/-! ## Ping aggregator -/

/-- The snapshot `update_ping_thread_inner` takes of the registry
(lib.rs lines 657-671): `(runner_id, workflow_id, last_rtt)` per connection. -/
def snapshotRunners (conns : List (RunnerId × Connection)) : List (RunnerId × Nat × Nat) :=
  conns.map fun p => (p.1, p.2.workflowId, p.2.lastRtt)

/-! ## Concrete environments used by the concrete theorems below -/

/-- A neutral environment: every external call succeeds with the simplest
value, the codec rejects everything. Specialized per theorem by structure
update. -/
def env0 : Env where
  now := 0
  decode := fun _ _ => .error "unexpected"
  serialize := fun _ _ => .ok ()
  parseId := fun _ => .error "bad id"
  getRunnerActors := fun _ => .ok []
  kvGet := fun _ _ => .error "kv"
  kvList := fun _ _ _ _ => .error "kv"
  kvPut := fun _ _ _ => .error "kv"
  kvDelete := fun _ _ => .error "kv"
  kvDropAll := fun _ => .error "kv"
  convertSignal := fun _ => .ok ()
  resolveNamespace := fun _ => .ok (some 1)
  getByKey := fun _ _ _ => .ok none
  updateAllocIdx := fun _ => .ok []
  newId := 0
  dispatchWorkflow := fun _ => .ok 0
  sendInitSignal := fun _ => .ok ()

/-- A connection at protocol version 1 as installed after a handshake. -/
def connA : Connection := { workflowId := 3, protocolVersion := 1, lastRtt := 0 }

/-! ## Truncation lemmas for the close-frame reason -/

/-- The truncated character list never exceeds the byte budget. -/
theorem byteLen_takeBytes_le (l : List Char) (n : Nat) : byteLen (takeBytes l n) ≤ n := by
  induction l generalizing n with
  | nil => simp [takeBytes, byteLen]
  | cons c cs ih =>
    by_cases h : c.utf8Size ≤ n
    · have hrec := ih (n - c.utf8Size)
      simp only [byteLen, List.map_cons, List.sum_cons] at hrec ⊢
      simp only [takeBytes, if_pos h, List.map_cons, List.sum_cons]
      omega
    · simp [takeBytes, if_neg h, byteLen]

/-- The truncated character list is a front part of the original. -/
theorem takeBytes_front (l : List Char) (n : Nat) : ∃ t, takeBytes l n ++ t = l := by
  induction l generalizing n with
  | nil => exact ⟨[], rfl⟩
  | cons c cs ih =>
    by_cases h : c.utf8Size ≤ n
    · obtain ⟨t, ht⟩ := ih (n - c.utf8Size)
      exact ⟨t, by simp [takeBytes, if_pos h, ht]⟩
    · exact ⟨c :: cs, by simp [takeBytes, if_neg h]⟩

/-- When the whole string already fits the budget, nothing is truncated. -/
theorem takeBytes_of_byteLen_le (l : List Char) (n : Nat) (h : byteLen l ≤ n) :
    takeBytes l n = l := by
  induction l generalizing n with
  | nil => rfl
  | cons c cs ih =>
    simp only [byteLen, List.map_cons, List.sum_cons] at h
    have h1 : c.utf8Size ≤ n := by omega
    have h2 : byteLen cs ≤ n - c.utf8Size := by simp only [byteLen]; omega
    simp [takeBytes, if_pos h1, ih _ h2]

/-! ## C8 -/

/-- C8: `err_to_close_frame` maps an error to close code 1000 (Normal) iff
its (group, code) is ("ws", "connection_closed") and to the error close
code 1011 otherwise; the reason is the UTF-8 string "group.code" truncated
to at most 123 bytes on a character-safe boundary (a character-aligned
front part of the full string, unchanged whenever the full string already
fits); an error carrying no RivetError gets the INTERNAL_ERROR encoding. -/
theorem c8_close_frame_encoding (g c detail m : String) :
    ((err_to_close_frame (.rivet { group := g, code := c } detail)).code = 1000
      ↔ (g = "ws" ∧ c = "connection_closed")) ∧
    (¬(g = "ws" ∧ c = "connection_closed") →
      (err_to_close_frame (.rivet { group := g, code := c } detail)).code = 1011) ∧
    (err_to_close_frame (.rivet { group := g, code := c } detail)).reason
      = safe_slice (g ++ "." ++ c) 123 ∧
    byteLen (err_to_close_frame (.rivet { group := g, code := c } detail)).reason.data ≤ 123 ∧
    (∃ t, (err_to_close_frame (.rivet { group := g, code := c } detail)).reason.data ++ t
      = (g ++ "." ++ c).data) ∧
    (byteLen (g ++ "." ++ c).data ≤ 123 →
      (err_to_close_frame (.rivet { group := g, code := c } detail)).reason = g ++ "." ++ c) ∧
    err_to_close_frame (.plain m) = err_to_close_frame (.rivet INTERNAL_ERROR m) := by
  refine ⟨?_, ?_, rfl, ?_, ?_, ?_, rfl⟩
  · simp only [err_to_close_frame]
    split
    · next h => simp [h]
    · next h => simp [h]
  · intro h
    simp [err_to_close_frame, h]
  · exact byteLen_takeBytes_le _ _
  · exact takeBytes_front _ _
  · intro h
    simp only [err_to_close_frame, safe_slice]
    rw [takeBytes_of_byteLen_le _ _ h]

/-! ## C1 -/

/-- C1 (code_bug evidence): a peer Close frame (and likewise end-of-stream)
terminates the read loop with a plain `bail!` error whose chain carries no
RivetError, so the close frame `handle_connection` then sends is the
generic internal-error encoding with close code 1011 — not code 1000
(Normal) with reason "ws.connection_closed" as the spec states. The
`WsError::ConnectionClosed` arm of `handle_connection` would produce that
frame, but it is unreachable: `handle_messages` never returns Ok. -/
theorem c1_peer_close_generic_frame :
    (handle_messages env0 5 connA [WsMessage.close]).1
      = .error (.plain "socket closed 5") ∧
    (handle_messages env0 5 connA []).1
      = .error (.plain "stream closed 5") ∧
    connectionCloseFrame (handle_messages env0 5 connA [WsMessage.close]).1
      = { code := 1011, reason := "core.internal_error" } ∧
    connectionCloseFrame (handle_messages env0 5 connA [WsMessage.close]).1
      ≠ { code := 1000, reason := "ws.connection_closed" } ∧
    connectionCloseFrame (.ok ()) = { code := 1000, reason := "ws.connection_closed" } := by
  exact ⟨rfl, rfl, by decide, by decide, by decide⟩

/-! ## C4 -/

/-- An environment whose codec rejects every buffer with a structured parse
error (modelled from the spec: the raw `versioned::ToServer::deserialize`
error carries no RivetError; the handshake path wrapping the very same
failure in `WsError::InvalidPacket` confirms the raw error is not a ws
error). -/
def envBadCodec : Env := { env0 with decode := fun _ _ => .error "failed to deserialize" }

/-- C4 (code_bug evidence): a mid-stream binary frame that fails to decode
terminates the read loop (as claimed), but the error propagates unwrapped —
`handle_messages` has no `WsError::InvalidPacket` wrapping, unlike
`build_connection` — so the close frame sent is the generic internal-error
encoding, with reason "core.internal_error", not "ws.invalid_packet". The
last conjunct shows the frame the claim expects, produced only by the
wrapped error. -/
theorem c4_codec_failure_generic_frame :
    (handle_messages envBadCodec 9 connA [WsMessage.binary [0, 1]]).1
      = .error (.plain "failed to deserialize") ∧
    connectionCloseFrame (handle_messages envBadCodec 9 connA [WsMessage.binary [0, 1]]).1
      = { code := 1011, reason := "core.internal_error" } ∧
    (connectionCloseFrame (handle_messages envBadCodec 9 connA [WsMessage.binary [0, 1]]).1).reason
      ≠ "ws.invalid_packet" ∧
    err_to_close_frame ((WsError.invalidPacket "failed to deserialize").build)
      = { code := 1011, reason := "ws.invalid_packet" } := by
  exact ⟨rfl, by decide, by decide, by decide⟩

/-! ## C9 -/

/-- C9 as amended: a mid-stream `Ping{ts}` whose clamped difference
`max(0, now - ts)` fits a u32 stores that value into `last_rtt`, sends no
frame, performs no KV call and no signal, and the loop continues with the
connection otherwise unchanged. Timestamp arithmetic is modelled from the
spec as unsigned with truncated subtraction (`saturating_sub`), matching
the spec's `max(0, now_ms - ts)`. -/
theorem c9_ping_stores_rtt (env : Env) (runnerId : RunnerId) (conn : Connection)
    (buf : List Nat) (ts : Nat)
    (hdec : env.decode conn.protocolVersion buf = .ok (.toServerPing ts))
    (hfit : env.now - ts < 4294967296) :
    handleMessage env runnerId conn (.binary buf)
      = .cont { conn with lastRtt := env.now - ts } {} := by
  simp [handleMessage, hdec, hfit]

/-- An environment whose clock reads a realistic 2025 wall time and whose
codec decodes every buffer as `Ping{ts: 0}`. -/
def envPingFar : Env :=
  { env0 with now := 1760227200000, decode := fun _ _ => .ok (.toServerPing 0) }

/-- C9 counterexample: at now = 1760227200000 ms and ts = 0 the claim says
the loop stores rtt = 1760227200000 and continues; the code's
`try_into()?` to u32 fails on that value and the read loop terminates. -/
theorem c9_ping_overflow_terminates :
    handleMessage envPingFar 7 connA (.binary [])
      = .term (.plain "out of range integral type conversion attempted") {} ∧
    ∀ conn eff, handleMessage envPingFar 7 connA (.binary []) ≠ .cont conn eff := by
  refine ⟨by decide, ?_⟩
  intro conn eff h
  rw [(by decide : handleMessage envPingFar 7 connA (.binary [])
    = .term (.plain "out of range integral type conversion attempted") {})] at h
  cases h

/-- Witness for C9: at now = 1000 and ts = 400 the loop continues with
last_rtt = 600. -/
def envPingNear : Env :=
  { env0 with now := 1000, decode := fun _ _ => .ok (.toServerPing 400) }

theorem c9_ping_stores_rtt_witness :
    envPingNear.decode connA.protocolVersion [] = .ok (.toServerPing 400) ∧
    envPingNear.now - 400 < 4294967296 ∧
    handleMessage envPingNear 7 connA (.binary [])
      = .cont { connA with lastRtt := 600 } {} :=
  ⟨rfl, by decide, c9_ping_stores_rtt envPingNear 7 connA [] 400 rfl (by decide)⟩

/-! ## C2 -/

/-- C2 as amended: an actor-id parse failure and every error returned by
the KV backend — for Get, List (with a convertible limit), Put, Delete and
Drop alike — are returned to the client as a `KvErrorResponse` carrying the
original request_id and the read loop continues; however, a `List` request
whose `limit` cannot be converted to the backend's width makes the
conversion error propagate out of the loop — the read loop terminates and
no `KvErrorResponse` is sent. -/
theorem c2_kv_error_responses (env : Env) (runnerId : RunnerId) (conn : Connection)
    (req : KvRequest) (actorId : Nat) (actors : List ActorInfo)
    (hser : ∀ m, env.serialize conn.protocolVersion m = .ok ()) :
    (∀ e, env.parseId req.actorId = .error e →
      handleKvRequest env runnerId conn req
        = .cont conn { sent := [.kvResponse { requestId := req.requestId, data := .errorResp e }] }) ∧
    (env.parseId req.actorId = .ok actorId →
     env.getRunnerActors actorId = .ok actors →
     (actors.head?.map fun x => x.runnerId == runnerId).getD false = true →
      (∀ keys e, req.data = .get keys → env.kvGet actorId keys = .error e →
        handleKvRequest env runnerId conn req
          = .cont conn
              { sent := [.kvResponse { requestId := req.requestId, data := .errorResp e }]
                kvOps := [(actorId, .get keys)] }) ∧
      (∀ query reverse limit lim e, req.data = .list query reverse limit →
        limitTransposed limit = .ok lim →
        env.kvList actorId query (reverse.getD false) lim = .error e →
        handleKvRequest env runnerId conn req
          = .cont conn
              { sent := [.kvResponse { requestId := req.requestId, data := .errorResp e }]
                kvOps := [(actorId, .list query reverse limit)] }) ∧
      (∀ keys values e, req.data = .put keys values →
        env.kvPut actorId keys values = .error e →
        handleKvRequest env runnerId conn req
          = .cont conn
              { sent := [.kvResponse { requestId := req.requestId, data := .errorResp e }]
                kvOps := [(actorId, .put keys values)] }) ∧
      (∀ keys e, req.data = .delete keys → env.kvDelete actorId keys = .error e →
        handleKvRequest env runnerId conn req
          = .cont conn
              { sent := [.kvResponse { requestId := req.requestId, data := .errorResp e }]
                kvOps := [(actorId, .delete keys)] }) ∧
      (∀ e, req.data = .drop → env.kvDropAll actorId = .error e →
        handleKvRequest env runnerId conn req
          = .cont conn
              { sent := [.kvResponse { requestId := req.requestId, data := .errorResp e }]
                kvOps := [(actorId, .drop)] }) ∧
      (∀ query reverse i, req.data = .list query reverse (some i) → i < 0 →
        handleKvRequest env runnerId conn req
          = .term (.plain "out of range integral type conversion attempted") {})) := by
  constructor
  · intro e he
    simp [handleKvRequest, he, sendKvResponse, hser]
  · intro hp hl hb
    refine ⟨?_, ?_, ?_, ?_, ?_, ?_⟩
    · intro keys e hreq herr
      simp [handleKvRequest, hp, hl, hb, hreq, herr, sendKvResponse, hser]
    · intro query reverse limit lim e hreq hlim herr
      simp [handleKvRequest, hp, hl, hb, hreq, hlim, herr, sendKvResponse, hser]
    · intro keys values e hreq herr
      simp [handleKvRequest, hp, hl, hb, hreq, herr, sendKvResponse, hser]
    · intro keys e hreq herr
      simp [handleKvRequest, hp, hl, hb, hreq, herr, sendKvResponse, hser]
    · intro e hreq herr
      simp [handleKvRequest, hp, hl, hb, hreq, herr, sendKvResponse, hser]
    · intro query reverse i hreq hneg
      simp [handleKvRequest, hp, hl, hb, hreq, limitTransposed, limitToWidth, hneg, Except.map]

/-- An environment under which runner 42 owns the actor of every request
and the codec decodes every buffer as a `List` request with limit -1. -/
def envListNeg : Env :=
  { env0 with
    decode := fun _ _ => .ok (.toServerKvRequest
      { requestId := 7, actorId := "a", data := .list 0 none (some (-1)) })
    parseId := fun _ => .ok 42
    getRunnerActors := fun _ => .ok [{ runnerId := 42 }] }

/-- C2 counterexample: a `List` KvRequest with limit -1 (a protocol value
with no backend-width image) on runner 42's own actor terminates the read
loop with the conversion error and sends no `KvErrorResponse`, against the
claim that every KV handling error flows back to the client and the loop
continues. -/
theorem c2_list_limit_terminates :
    handleMessage envListNeg 42 connA (.binary [])
      = .term (.plain "out of range integral type conversion attempted") {} ∧
    ∀ conn eff, handleMessage envListNeg 42 connA (.binary []) ≠ .cont conn eff := by
  refine ⟨by decide, ?_⟩
  intro conn eff h
  rw [(by decide : handleMessage envListNeg 42 connA (.binary [])
    = .term (.plain "out of range integral type conversion attempted") {})] at h
  cases h

/-- Witness for C2: with a parse-failing actor id the loop continues and
the parse error comes back as a KvErrorResponse with the request's id. -/
theorem c2_kv_error_responses_witness :
    (∀ m, env0.serialize connA.protocolVersion m = .ok ()) ∧
    env0.parseId "nope" = .error "bad id" ∧
    handleKvRequest env0 42 connA { requestId := 9, actorId := "nope", data := .drop }
      = .cont connA { sent := [.kvResponse { requestId := 9, data := .errorResp "bad id" }] } := by
  have hser : ∀ m, env0.serialize connA.protocolVersion m = .ok () := fun _ => rfl
  exact ⟨hser, rfl,
    (c2_kv_error_responses env0 42 connA { requestId := 9, actorId := "nope", data := .drop }
      0 [] hser).1 "bad id" rfl⟩

/-! ## C6 -/

/-- The KV backend calls an outcome performed. -/
def stepKvOps : StepOutcome → List (Nat × KvRequestData)
  | .cont _ eff => eff.kvOps
  | .term _ eff => eff.kvOps

/-- Lists whose limit (if any) has a backend-width image; every other
request kind trivially. -/
def convertibleLimit : KvRequestData → Bool
  | .list _ _ (some i) => decide (0 ≤ i)
  | _ => true

/-- C6: a KvRequest whose actor id parses is dispatched to the KV backend
iff the actor lookup resolves its first actor to the connection's runner
id; on mismatch, or when the lookup returns no actor, the gateway sends a
`KvErrorResponse` with message "given actor does not belong to runner"
carrying the request's original request_id, performs no backend call, and
the connection remains open (the loop continues with the connection
unchanged). The `convertibleLimit` hypothesis excludes the limit-conversion
failure settled under C2. -/
theorem c6_kv_authorization (env : Env) (runnerId : RunnerId) (conn : Connection)
    (req : KvRequest) (actorId : Nat) (actors : List ActorInfo)
    (hparse : env.parseId req.actorId = .ok actorId)
    (hlook : env.getRunnerActors actorId = .ok actors)
    (hser : ∀ m, env.serialize conn.protocolVersion m = .ok ())
    (hconv : convertibleLimit req.data = true) :
    (stepKvOps (handleKvRequest env runnerId conn req) ≠ []
      ↔ (actors.head?.map fun x => x.runnerId == runnerId).getD false = true) ∧
    ((actors.head?.map fun x => x.runnerId == runnerId).getD false = false →
      handleKvRequest env runnerId conn req
        = .cont conn
            { sent := [.kvResponse
                { requestId := req.requestId
                  data := .errorResp "given actor does not belong to runner" }] }) := by
  by_cases hb : (actors.head?.map fun x => x.runnerId == runnerId).getD false = true
  · refine ⟨?_, ?_⟩
    · simp only [hb, iff_true]
      cases hreq : req.data with
      | get keys =>
        cases hres : env.kvGet actorId keys <;>
          simp [handleKvRequest, hparse, hlook, hb, hreq, hres, sendKvResponse, hser, stepKvOps]
      | list query reverse limit =>
        cases limit with
        | none =>
          cases hres : env.kvList actorId query (reverse.getD false) none <;>
            simp [handleKvRequest, hparse, hlook, hb, hreq, hres, sendKvResponse, hser,
              stepKvOps, limitTransposed]
        | some i =>
          rw [hreq] at hconv
          simp only [convertibleLimit, decide_eq_true_eq] at hconv
          have hlim : limitTransposed (some i) = .ok (some i.toNat) := by
            simp [limitTransposed, limitToWidth, not_lt.mpr hconv, Except.map]
          cases hres : env.kvList actorId query (reverse.getD false) (some i.toNat) <;>
            simp [handleKvRequest, hparse, hlook, hb, hreq, hres, sendKvResponse, hser,
              stepKvOps, hlim]
      | put keys values =>
        cases hres : env.kvPut actorId keys values <;>
          simp [handleKvRequest, hparse, hlook, hb, hreq, hres, sendKvResponse, hser, stepKvOps]
      | delete keys =>
        cases hres : env.kvDelete actorId keys <;>
          simp [handleKvRequest, hparse, hlook, hb, hreq, hres, sendKvResponse, hser, stepKvOps]
      | drop =>
        cases hres : env.kvDropAll actorId <;>
          simp [handleKvRequest, hparse, hlook, hb, hreq, hres, sendKvResponse, hser, stepKvOps]
    · intro hfalse
      rw [hb] at hfalse
      cases hfalse
  · have hb' : (actors.head?.map fun x => x.runnerId == runnerId).getD false = false :=
      Bool.not_eq_true _ ▸ (by simpa using hb)
    refine ⟨?_, ?_⟩
    · simp [handleKvRequest, hparse, hlook, hb', sendKvResponse, hser, stepKvOps]
    · intro _
      simp [handleKvRequest, hparse, hlook, hb', sendKvResponse, hser]

/-- An environment whose actor lookup assigns every actor to runner 1000. -/
def envOtherRunner : Env :=
  { env0 with
    parseId := fun _ => .ok 8
    getRunnerActors := fun _ => .ok [{ runnerId := 1000 }] }

/-- Witness for C6: runner 42 asks about an actor owned by runner 1000 and
gets the ownership error back with its request id, no backend call made. -/
theorem c6_kv_authorization_witness :
    envOtherRunner.parseId "a" = .ok 8 ∧
    envOtherRunner.getRunnerActors 8 = .ok [{ runnerId := 1000 }] ∧
    (∀ m, envOtherRunner.serialize connA.protocolVersion m = .ok ()) ∧
    convertibleLimit (KvRequestData.get [1]) = true ∧
    ((stepKvOps (handleKvRequest envOtherRunner 42 connA
        { requestId := 3, actorId := "a", data := .get [1] }) ≠ []
      ↔ (([{ runnerId := 1000 }] : List ActorInfo).head?.map
            fun x => x.runnerId == 42).getD false = true) ∧
    ((([{ runnerId := 1000 }] : List ActorInfo).head?.map
          fun x => x.runnerId == 42).getD false = false →
      handleKvRequest envOtherRunner 42 connA
          { requestId := 3, actorId := "a", data := .get [1] }
        = .cont connA
            { sent := [.kvResponse
                { requestId := 3
                  data := .errorResp "given actor does not belong to runner" }] })) := by
  have hser : ∀ m, envOtherRunner.serialize connA.protocolVersion m = .ok () := fun _ => rfl
  exact ⟨rfl, rfl, hser, rfl,
    c6_kv_authorization envOtherRunner 42 connA
      { requestId := 3, actorId := "a", data := .get [1] } 8 [{ runnerId := 1000 }]
      rfl rfl hser rfl⟩

/-! ## C5 -/

/-- C5: during the handshake, when a runner exists for (namespace-id, name,
runner_key) the gateway's first write effect is the `update_alloc_idx` call
with `UpdatePing{rtt: 0}` for that runner (it precedes the workflow
dispatch and the init signal), and the runner id the successful handshake
returns is a freshly minted one exactly when the first returned
notification reports `Expired`, the existing id otherwise; when no runner
exists for the key a fresh id is minted. -/
theorem c5_runner_identity (env : Env) (url : UrlData) (buf : List Nat)
    (name version : String) (slots : Nat) (namespaceId : Nat)
    (hns : env.resolveNamespace url.nsName = .ok (some namespaceId))
    (hdec : env.decode url.protocolVersion buf = .ok (.init name version slots)) :
    (∀ runner notifications,
      env.getByKey namespaceId name url.runnerKey = .ok (some runner) →
      env.updateAllocIdx [(runner, .updatePing 0)] = .ok notifications →
      (∃ rest, (build_connection env url (.msg (.binary buf))).2
          = HsEffect.updateAllocIdx [(runner, .updatePing 0)] :: rest) ∧
      (∀ runnerId workflowId conn,
        (build_connection env url (.msg (.binary buf))).1 = .ok (runnerId, workflowId, conn) →
        runnerId = if notifExpired notifications then env.newId else runner)) ∧
    (env.getByKey namespaceId name url.runnerKey = .ok none →
      ∀ runnerId workflowId conn,
        (build_connection env url (.msg (.binary buf))).1 = .ok (runnerId, workflowId, conn) →
        runnerId = env.newId) := by
  constructor
  · intro runner notifications hkey hping
    cases hexp : notifExpired notifications with
    | true =>
      refine ⟨?_, ?_⟩
      · simp only [build_connection, hns, hdec, hkey, hping, hexp, ↓reduceIte]
        cases hd : env.dispatchWorkflow env.newId with
        | error e => simp only [hd]; exact ⟨_, rfl⟩
        | ok wf =>
          simp only [hd]
          cases hs : env.sendInitSignal wf with
          | error e => simp only [hs]; exact ⟨_, rfl⟩
          | ok u => simp only [hs]; exact ⟨_, rfl⟩
      · intro runnerId workflowId conn hok
        simp only [build_connection, hns, hdec, hkey, hping, hexp, ↓reduceIte] at hok
        cases hd : env.dispatchWorkflow env.newId with
        | error e => simp [hd] at hok
        | ok wf =>
          simp only [hd] at hok
          cases hs : env.sendInitSignal wf with
          | error e => simp [hs] at hok
          | ok u =>
            simp only [hs] at hok
            simp [hexp]
            simp at hok
            exact hok.1.symm
    | false =>
      refine ⟨?_, ?_⟩
      · simp only [build_connection, hns, hdec, hkey, hping, hexp, Bool.false_eq_true,
          ↓reduceIte]
        cases hd : env.dispatchWorkflow runner with
        | error e => simp only [hd]; exact ⟨_, rfl⟩
        | ok wf =>
          simp only [hd]
          cases hs : env.sendInitSignal wf with
          | error e => simp only [hs]; exact ⟨_, rfl⟩
          | ok u => simp only [hs]; exact ⟨_, rfl⟩
      · intro runnerId workflowId conn hok
        simp only [build_connection, hns, hdec, hkey, hping, hexp, Bool.false_eq_true,
          ↓reduceIte] at hok
        cases hd : env.dispatchWorkflow runner with
        | error e => simp [hd] at hok
        | ok wf =>
          simp only [hd] at hok
          cases hs : env.sendInitSignal wf with
          | error e => simp [hs] at hok
          | ok u =>
            simp only [hs] at hok
            simp [hexp]
            simp at hok
            exact hok.1.symm
  · intro hkey runnerId workflowId conn hok
    simp only [build_connection, hns, hdec, hkey] at hok
    cases hd : env.dispatchWorkflow env.newId with
    | error e => simp [hd] at hok
    | ok wf =>
      simp only [hd] at hok
      cases hs : env.sendInitSignal wf with
      | error e => simp [hs] at hok
      | ok u =>
        simp only [hs] at hok
        simp at hok
        exact hok.1.symm

/-- An environment under which the key resolves to runner 77, the pre-ping
reports `Expired`, and fresh ids read 99. -/
def envExpired : Env :=
  { env0 with
    decode := fun _ _ => .ok (.init "n" "v" 4)
    getByKey := fun _ _ _ => .ok (some 77)
    updateAllocIdx := fun _ => .ok [{ runnerId := 77, workflowId := 5, eligibility := .expired }]
    newId := 99
    dispatchWorkflow := fun _ => .ok 55 }

/-- The URL data used by the handshake witnesses. -/
def urlA : UrlData := { protocolVersion := 1, nsName := "ns", runnerKey := "k" }

/-- Witness for C5: with an existing runner 77 whose pre-ping comes back
`Expired`, the first effect is the pre-ping and the handshake returns the
fresh id 99. -/
theorem c5_runner_identity_witness :
    envExpired.resolveNamespace urlA.nsName = .ok (some 1) ∧
    envExpired.decode urlA.protocolVersion [] = .ok (.init "n" "v" 4) ∧
    ((∀ runner notifications,
      envExpired.getByKey 1 "n" urlA.runnerKey = .ok (some runner) →
      envExpired.updateAllocIdx [(runner, .updatePing 0)] = .ok notifications →
      (∃ rest, (build_connection envExpired urlA (.msg (.binary []))).2
          = HsEffect.updateAllocIdx [(runner, .updatePing 0)] :: rest) ∧
      (∀ runnerId workflowId conn,
        (build_connection envExpired urlA (.msg (.binary []))).1
          = .ok (runnerId, workflowId, conn) →
        runnerId = if notifExpired notifications then envExpired.newId else runner)) ∧
    (envExpired.getByKey 1 "n" urlA.runnerKey = .ok none →
      ∀ runnerId workflowId conn,
        (build_connection envExpired urlA (.msg (.binary []))).1
          = .ok (runnerId, workflowId, conn) →
        runnerId = envExpired.newId)) :=
  ⟨rfl, rfl, c5_runner_identity envExpired urlA [] "n" "v" 4 1 rfl rfl⟩

/-! ## C7 -/

/-- C7: whenever `build_connection` fails, `handle_connection` emits only a
close frame encoding that error and performs no registry insertion; a
handshake timeout fails with `timed_out_waiting_for_init` having performed
no write effect at all (in particular no workflow dispatch), and likewise a
non-binary first frame and a non-Init first payload fail with their
`invalid_initial_packet` errors before any write effect. -/
theorem c7_handshake_failure (env : Env) (url : UrlData) (first : HsFirst)
    (namespaceId : Nat)
    (hns : env.resolveNamespace url.nsName = .ok (some namespaceId)) :
    (∀ e, (build_connection env url first).1 = .error e →
      handshakePhase env url first = [.closeFrame (err_to_close_frame e)] ∧
      ∀ r, ConnEffect.registryInsert r ∉ handshakePhase env url first) ∧
    (first = .timeout →
      (build_connection env url first).1 = .error (WsError.timedOutWaitingForInit.build) ∧
      (build_connection env url first).2 = [] ∧
      ∀ r ns n k, HsEffect.dispatchWorkflow r ns n k ∉ (build_connection env url first).2) ∧
    (first = .msg .other →
      (build_connection env url first).1
        = .error ((WsError.invalidInitialPacket "must be a binary blob").build) ∧
      (build_connection env url first).2 = []) ∧
    (∀ buf packet, first = .msg (.binary buf) →
      env.decode url.protocolVersion buf = .ok packet →
      (∀ name version slots, packet ≠ .init name version slots) →
      (build_connection env url first).1
        = .error ((WsError.invalidInitialPacket "must be `ToServer::Init`").build) ∧
      (build_connection env url first).2 = []) := by
  refine ⟨?_, ?_, ?_, ?_⟩
  · intro e he
    constructor
    · simp only [handshakePhase, he]
    · intro r hr
      simp only [handshakePhase, he, List.mem_singleton] at hr
      cases hr
  · intro hfirst
    subst hfirst
    simp [build_connection, hns]
  · intro hfirst
    subst hfirst
    simp [build_connection, hns]
  · intro buf packet hfirst hdec hnotinit
    subst hfirst
    cases packet with
    | init name version slots => exact absurd rfl (hnotinit name version slots)
    | toServerPing ts => simp [build_connection, hns, hdec]
    | toServerKvRequest req => simp [build_connection, hns, hdec]
    | otherVariant tag => simp [build_connection, hns, hdec]

/-- Witness for C7: under the neutral environment a timeout fails the
handshake with `timed_out_waiting_for_init`, only a close frame is emitted,
nothing is inserted and nothing dispatched. -/
theorem c7_handshake_failure_witness :
    env0.resolveNamespace urlA.nsName = .ok (some 1) ∧
    ((∀ e, (build_connection env0 urlA .timeout).1 = .error e →
      handshakePhase env0 urlA .timeout = [.closeFrame (err_to_close_frame e)] ∧
      ∀ r, ConnEffect.registryInsert r ∉ handshakePhase env0 urlA .timeout) ∧
    (HsFirst.timeout = .timeout →
      (build_connection env0 urlA .timeout).1
        = .error (WsError.timedOutWaitingForInit.build) ∧
      (build_connection env0 urlA .timeout).2 = [] ∧
      ∀ r ns n k, HsEffect.dispatchWorkflow r ns n k ∉ (build_connection env0 urlA .timeout).2) ∧
    (HsFirst.timeout = .msg .other →
      (build_connection env0 urlA .timeout).1
        = .error ((WsError.invalidInitialPacket "must be a binary blob").build) ∧
      (build_connection env0 urlA .timeout).2 = []) ∧
    (∀ buf packet, HsFirst.timeout = .msg (.binary buf) →
      env0.decode urlA.protocolVersion buf = .ok packet →
      (∀ name version slots, packet ≠ .init name version slots) →
      (build_connection env0 urlA .timeout).1
        = .error ((WsError.invalidInitialPacket "must be `ToServer::Init`").build) ∧
      (build_connection env0 urlA .timeout).2 = [])) :=
  ⟨rfl, c7_handshake_failure env0 urlA .timeout 1 rfl⟩

/-! ## C10 -/

/-- A continuing response send leaves the connection unchanged. -/
theorem sendKvResponse_cont (env : Env) (conn : Connection) (resp : ToClientKvResponse)
    (ops : List (Nat × KvRequestData)) (conn2 : Connection) (eff : StepEffects)
    (h : sendKvResponse env conn resp ops = .cont conn2 eff) : conn2 = conn := by
  unfold sendKvResponse at h
  split at h
  · simp at h
  · simp only [StepOutcome.cont.injEq] at h
    exact h.1.symm

/-- A KV request never changes the connection state: every continuing
outcome of `handleKvRequest` carries the connection unchanged. -/
theorem handleKvRequest_cont_conn (env : Env) (runnerId : RunnerId) (conn : Connection)
    (req : KvRequest) (conn2 : Connection) (eff : StepEffects)
    (h : handleKvRequest env runnerId conn req = .cont conn2 eff) : conn2 = conn := by
  unfold handleKvRequest at h
  cases hp : env.parseId req.actorId with
  | error e =>
    simp only [hp] at h
    exact sendKvResponse_cont env conn _ _ conn2 eff h
  | ok actorId =>
    simp only [hp] at h
    cases hl : env.getRunnerActors actorId with
    | error e => simp [hl] at h
    | ok actors =>
      simp only [hl] at h
      cases hb : (actors.head?.map fun x => x.runnerId == runnerId).getD false with
      | false =>
        simp only [hb, Bool.not_false, ↓reduceIte] at h
        exact sendKvResponse_cont env conn _ _ conn2 eff h
      | true =>
        simp only [hb, Bool.not_true, Bool.false_eq_true, ↓reduceIte] at h
        cases hreq : req.data with
        | get keys =>
          rw [hreq] at h
          exact sendKvResponse_cont env conn _ _ conn2 eff h
        | list query reverse limit =>
          rw [hreq] at h
          cases hlim : limitTransposed limit with
          | error e => simp [hlim] at h
          | ok lim =>
            simp only [hlim] at h
            exact sendKvResponse_cont env conn _ _ conn2 eff h
        | put keys values =>
          rw [hreq] at h
          exact sendKvResponse_cont env conn _ _ conn2 eff h
        | delete keys =>
          rw [hreq] at h
          exact sendKvResponse_cont env conn _ _ conn2 eff h
        | drop =>
          rw [hreq] at h
          exact sendKvResponse_cont env conn _ _ conn2 eff h

/-- A continuing read-loop step keeps the workflow id and protocol version,
and changes `last_rtt` only when the message decoded to a Ping (in which
case the clamped difference is stored). -/
theorem handleMessage_cont (env : Env) (runnerId : RunnerId) (conn : Connection)
    (msg : WsMessage) (conn2 : Connection) (eff : StepEffects)
    (h : handleMessage env runnerId conn msg = .cont conn2 eff) :
    conn2.workflowId = conn.workflowId ∧ conn2.protocolVersion = conn.protocolVersion ∧
    (conn2.lastRtt = conn.lastRtt ∨
      ∃ buf ts, msg = .binary buf ∧
        env.decode conn.protocolVersion buf = .ok (.toServerPing ts) ∧
        conn2.lastRtt = env.now - ts) := by
  cases msg with
  | transportPing =>
    simp only [handleMessage, StepOutcome.cont.injEq] at h
    obtain ⟨h1, _⟩ := h
    subst h1
    exact ⟨rfl, rfl, Or.inl rfl⟩
  | close => simp [handleMessage] at h
  | other =>
    simp only [handleMessage, StepOutcome.cont.injEq] at h
    obtain ⟨h1, _⟩ := h
    subst h1
    exact ⟨rfl, rfl, Or.inl rfl⟩
  | binary buf =>
    simp only [handleMessage] at h
    cases hdec : env.decode conn.protocolVersion buf with
    | error e => simp [hdec] at h
    | ok packet =>
      simp only [hdec] at h
      cases packet with
      | toServerPing ts =>
        by_cases hfit : env.now - ts < 4294967296
        · simp only [if_pos hfit, StepOutcome.cont.injEq] at h
          obtain ⟨h1, _⟩ := h
          subst h1
          exact ⟨rfl, rfl, Or.inr ⟨buf, ts, rfl, hdec, rfl⟩⟩
        · simp [if_neg hfit] at h
      | toServerKvRequest req =>
        have := handleKvRequest_cont_conn env runnerId conn req conn2 eff h
        subst this
        exact ⟨rfl, rfl, Or.inl rfl⟩
      | init name version slots =>
        cases hcs : env.convertSignal (.init name version slots) with
        | error e => simp [hcs] at h
        | ok u =>
          simp only [hcs, StepOutcome.cont.injEq] at h
          obtain ⟨h1, _⟩ := h
          subst h1
          exact ⟨rfl, rfl, Or.inl rfl⟩
      | otherVariant tag =>
        cases hcs : env.convertSignal (.otherVariant tag) with
        | error e => simp [hcs] at h
        | ok u =>
          simp only [hcs, StepOutcome.cont.injEq] at h
          obtain ⟨h1, _⟩ := h
          subst h1
          exact ⟨rfl, rfl, Or.inl rfl⟩

/-- Over a prefix of the inbound stream containing no frame that decodes to
a Ping, the connection state survives unchanged in every field the ping
aggregator reads. -/
theorem runSteps_no_ping (env : Env) (runnerId : RunnerId) (msgs : List WsMessage) :
    ∀ conn conn2 : Connection,
    (∀ buf, WsMessage.binary buf ∈ msgs →
      ∀ ts, env.decode conn.protocolVersion buf ≠ .ok (.toServerPing ts)) →
    runSteps env runnerId conn msgs = some conn2 →
    conn2.lastRtt = conn.lastRtt ∧ conn2.workflowId = conn.workflowId ∧
      conn2.protocolVersion = conn.protocolVersion := by
  induction msgs with
  | nil =>
    intro conn conn2 _ h
    simp only [runSteps, Option.some.injEq] at h
    subst h
    exact ⟨rfl, rfl, rfl⟩
  | cons m rest ih =>
    intro conn conn2 hnp h
    simp only [runSteps] at h
    cases hm : handleMessage env runnerId conn m with
    | term e eff => simp [hm] at h
    | cont conn1 eff =>
      simp only [hm] at h
      obtain ⟨hw, hpv, hrtt⟩ := handleMessage_cont env runnerId conn m conn1 eff hm
      have hrtt1 : conn1.lastRtt = conn.lastRtt := by
        rcases hrtt with h1 | ⟨buf, ts, hmeq, hdec, _⟩
        · exact h1
        · exact absurd hdec (hnp buf (hmeq ▸ List.mem_cons_self m rest) ts)
      have hnp1 : ∀ buf, WsMessage.binary buf ∈ rest →
          ∀ ts, env.decode conn1.protocolVersion buf ≠ .ok (.toServerPing ts) := by
        intro buf hb ts
        rw [hpv]
        exact hnp buf (List.mem_cons_of_mem _ hb) ts
      obtain ⟨h1, h2, h3⟩ := ih conn1 conn2 hnp1 h
      exact ⟨h1.trans hrtt1, h2.trans hw, h3.trans hpv⟩

/-- C10: every Connection a successful handshake builds starts with
`last_rtt = 0`; a continuing read-loop step changes `last_rtt` only when
the frame decoded to a Ping; consequently, for a connection that has
processed no Ping since installation, the ping-aggregator snapshot reports
that runner with rtt = 0. -/
theorem c10_last_rtt_zero_until_ping :
    (∀ env url first runnerId workflowId conn,
      (build_connection env url first).1 = .ok (runnerId, workflowId, conn) →
      conn.lastRtt = 0) ∧
    (∀ env runnerId conn msg conn2 eff,
      handleMessage env runnerId conn msg = .cont conn2 eff →
      conn2.lastRtt = conn.lastRtt ∨
        ∃ buf ts, msg = .binary buf ∧
          env.decode conn.protocolVersion buf = .ok (.toServerPing ts) ∧
          conn2.lastRtt = env.now - ts) ∧
    (∀ env runnerId conn msgs conn2,
      conn.lastRtt = 0 →
      (∀ buf, WsMessage.binary buf ∈ msgs →
        ∀ ts, env.decode conn.protocolVersion buf ≠ .ok (.toServerPing ts)) →
      runSteps env runnerId conn msgs = some conn2 →
      snapshotRunners [(runnerId, conn2)] = [(runnerId, conn2.workflowId, 0)]) := by
  refine ⟨?_, ?_, ?_⟩
  · intro env url first runnerId workflowId conn h
    unfold build_connection at h
    cases hns : env.resolveNamespace url.nsName with
    | error e => simp [hns] at h
    | ok onsid =>
      simp only [hns] at h
      cases onsid with
      | none => simp at h
      | some nsid =>
        cases first with
        | timeout => simp at h
        | streamEnd => simp at h
        | recvErr e => simp at h
        | msg m =>
          cases m with
          | close => simp at h
          | transportPing => simp at h
          | other => simp at h
          | binary buf =>
            cases hdec : env.decode url.protocolVersion buf with
            | error e => simp [hdec] at h
            | ok packet =>
              simp only [hdec] at h
              cases packet with
              | toServerPing ts => simp at h
              | toServerKvRequest req => simp at h
              | otherVariant tag => simp at h
              | init name version slots =>
                cases hkey : env.getByKey nsid name url.runnerKey with
                | error e => simp [hkey] at h
                | ok found =>
                  simp only [hkey] at h
                  cases found with
                  | none =>
                    cases hd : env.dispatchWorkflow env.newId with
                    | error e => simp [hd] at h
                    | ok wf =>
                      simp only [hd] at h
                      cases hs : env.sendInitSignal wf with
                      | error e => simp [hs] at h
                      | ok u =>
                        simp only [hs] at h
                        simp at h
                        obtain ⟨h1, h2, h3⟩ := h
                        subst h3
                        rfl
                  | some runner =>
                    cases hping : env.updateAllocIdx [(runner, .updatePing 0)] with
                    | error e => simp [hping] at h
                    | ok notifications =>
                      simp only [hping] at h
                      cases hexp : notifExpired notifications with
                      | true =>
                        simp only [hexp, ↓reduceIte] at h
                        cases hd : env.dispatchWorkflow env.newId with
                        | error e => simp [hd] at h
                        | ok wf =>
                          simp only [hd] at h
                          cases hs : env.sendInitSignal wf with
                          | error e => simp [hs] at h
                          | ok u =>
                            simp only [hs] at h
                            simp at h
                            obtain ⟨h1, h2, h3⟩ := h
                            subst h3
                            rfl
                      | false =>
                        simp only [hexp, Bool.false_eq_true, ↓reduceIte] at h
                        cases hd : env.dispatchWorkflow runner with
                        | error e => simp [hd] at h
                        | ok wf =>
                          simp only [hd] at h
                          cases hs : env.sendInitSignal wf with
                          | error e => simp [hs] at h
                          | ok u =>
                            simp only [hs] at h
                            simp at h
                            obtain ⟨h1, h2, h3⟩ := h
                            subst h3
                            rfl
  · intro env runnerId conn msg conn2 eff h
    exact (handleMessage_cont env runnerId conn msg conn2 eff h).2.2
  · intro env runnerId conn msgs conn2 h0 hnp h
    have := (runSteps_no_ping env runnerId msgs conn conn2 hnp h).1
    simp [snapshotRunners, this, h0]

/-! ## C3 -/

/-- A successful lookup returns one of the registered connections. -/
theorem lookupConn_mem_values (l : List (RunnerId × ConnId)) (r : RunnerId) (c : ConnId)
    (h : lookupConn l r = some c) : c ∈ l.map Prod.snd := by
  induction l with
  | nil => simp [lookupConn] at h
  | cons p rest ih =>
    obtain ⟨r1, c1⟩ := p
    by_cases hr : r1 = r
    · subst hr
      simp only [lookupConn, if_true, eq_self_iff_true, Option.some.injEq] at h
      subst h
      simp
    · simp only [lookupConn, if_neg hr] at h
      simpa using Or.inr (ih h)

/-- Insertion adds no connection value beyond the inserted one. -/
theorem mem_values_insertConn (l : List (RunnerId × ConnId)) (r : RunnerId) (c a : ConnId)
    (h : a ∈ (insertConn l r c).map Prod.snd) : a = c ∨ a ∈ l.map Prod.snd := by
  induction l with
  | nil => simpa [insertConn] using h
  | cons p rest ih =>
    obtain ⟨r1, c1⟩ := p
    by_cases hr : r1 = r
    · subst hr
      simp only [insertConn, if_true, eq_self_iff_true, List.map_cons, List.mem_cons] at h
      rcases h with h1 | h1
      · exact Or.inl h1
      · exact Or.inr (by simpa using Or.inr h1)
    · simp only [insertConn, if_neg hr, List.map_cons, List.mem_cons] at h
      rcases h with h1 | h1
      · exact Or.inr (by simpa using Or.inl h1)
      · rcases ih h1 with h2 | h2
        · exact Or.inl h2
        · exact Or.inr (by simpa using Or.inr h2)

/-- The keys after an insert are the inserted key and the old keys. -/
theorem mem_keys_insertConn (l : List (RunnerId × ConnId)) (r : RunnerId) (c : ConnId)
    (a : RunnerId) :
    a ∈ (insertConn l r c).map Prod.fst ↔ a = r ∨ a ∈ l.map Prod.fst := by
  induction l with
  | nil => simp [insertConn]
  | cons p rest ih =>
    obtain ⟨r1, c1⟩ := p
    by_cases hr : r1 = r
    · subst hr
      simp [insertConn]
    · simp only [insertConn, if_neg hr, List.map_cons, List.mem_cons, ih]
      tauto

/-- Insertion keeps the keys free of duplicates. -/
theorem nodup_keys_insertConn (l : List (RunnerId × ConnId)) (r : RunnerId) (c : ConnId)
    (h : (l.map Prod.fst).Nodup) : ((insertConn l r c).map Prod.fst).Nodup := by
  induction l with
  | nil => simp [insertConn]
  | cons p rest ih =>
    obtain ⟨r1, c1⟩ := p
    simp only [List.map_cons, List.nodup_cons] at h
    by_cases hr : r1 = r
    · subst hr
      simp only [insertConn, if_true, eq_self_iff_true, List.map_cons, List.nodup_cons]
      exact h
    · simp only [insertConn, if_neg hr, List.map_cons, List.nodup_cons]
      refine ⟨?_, ih h.2⟩
      intro hmem
      rcases (mem_keys_insertConn rest r c r1).1 hmem with h1 | h1
      · exact hr h1
      · exact h.1 h1

/-- `HashMap::remove` drops entries only. -/
theorem removeConn_sublist (l : List (RunnerId × ConnId)) (r : RunnerId) :
    List.Sublist (removeConn l r) l := by
  induction l with
  | nil => simp [removeConn]
  | cons p rest ih =>
    obtain ⟨r1, c1⟩ := p
    by_cases hr : r1 = r
    · simp only [removeConn, if_pos hr]
      exact List.Sublist.cons (r1, c1) (List.Sublist.refl rest)
    · simp only [removeConn, if_neg hr]
      exact List.Sublist.cons₂ (r1, c1) ih

/-- One atomic registry action keeps the keys free of duplicates (I1: at
most one connection per runner id at any instant). -/
theorem nodup_keys_regStep (s : RegState) (a : RegAction)
    (h : (s.conns.map Prod.fst).Nodup) : ((regStep s a).conns.map Prod.fst).Nodup := by
  cases a with
  | install r c =>
    simp only [regStep]
    cases hlk : lookupConn s.conns r with
    | some old => exact nodup_keys_insertConn s.conns r c h
    | none => exact nodup_keys_insertConn s.conns r c h
  | sendCommand r payload =>
    simp only [regStep]
    cases hlk : lookupConn s.conns r with
    | some c => exact h
    | none => exact h
  | closeWs r =>
    simp only [regStep]
    cases hlk : lookupConn s.conns r with
    | some c => exact h
    | none => exact h
  | remove r =>
    simp only [regStep]
    exact ((removeConn_sublist s.conns r).map Prod.fst).nodup h

/-- The invariant over any run of critical sections. -/
theorem nodup_keys_regRunFrom (acts : List RegAction) : ∀ s : RegState,
    (s.conns.map Prod.fst).Nodup → (((regRunFrom s acts).conns.map Prod.fst)).Nodup := by
  induction acts with
  | nil => intro s h; exact h
  | cons a rest ih => intro s h; exact ih _ (nodup_keys_regStep s a h)

/-- From the empty registry the service starts with. -/
theorem nodup_keys_regRun (acts : List RegAction) :
    ((regRun acts).conns.map Prod.fst).Nodup :=
  nodup_keys_regRunFrom acts _ (by simp)

/-- Each critical section only appends to the frame log. -/
theorem regStep_log (s : RegState) (a : RegAction) :
    ∃ t, (regStep s a).log = s.log ++ t := by
  cases a with
  | install r c =>
    simp only [regStep]
    cases hlk : lookupConn s.conns r with
    | some old => exact ⟨_, rfl⟩
    | none => exact ⟨[], by simp⟩
  | sendCommand r payload =>
    simp only [regStep]
    cases hlk : lookupConn s.conns r with
    | some c => exact ⟨_, rfl⟩
    | none => exact ⟨[], by simp⟩
  | closeWs r =>
    simp only [regStep]
    cases hlk : lookupConn s.conns r with
    | some c => exact ⟨_, rfl⟩
    | none => exact ⟨[], by simp⟩
  | remove r =>
    simp only [regStep]
    exact ⟨[], by simp⟩

/-- A run of critical sections only appends to the frame log. -/
theorem regRunFrom_log (acts : List RegAction) : ∀ s : RegState,
    ∃ t, (regRunFrom s acts).log = s.log ++ t := by
  induction acts with
  | nil => intro s; exact ⟨[], by simp [regRunFrom]⟩
  | cons a rest ih =>
    intro s
    obtain ⟨t1, h1⟩ := regStep_log s a
    obtain ⟨t2, h2⟩ := ih (regStep s a)
    refine ⟨t1 ++ t2, ?_⟩
    have hstep : regRunFrom s (a :: rest) = regRunFrom (regStep s a) rest := rfl
    rw [hstep, h2, h1, List.append_assoc]

/-- A connection id never installed is never written a command frame: the
registry never holds it, so the fan-in never resolves a runner to it. -/
theorem fresh_untouched (c : ConnId) (acts : List RegAction) : ∀ s : RegState,
    (∀ r conn, RegAction.install r conn ∈ acts → conn ≠ c) →
    c ∉ s.conns.map Prod.snd →
    (∀ payload, RegEvent.command c payload ∉ s.log) →
    c ∉ (regRunFrom s acts).conns.map Prod.snd ∧
      ∀ payload, RegEvent.command c payload ∉ (regRunFrom s acts).log := by
  induction acts with
  | nil => intro s _ hc hl; exact ⟨hc, hl⟩
  | cons a rest ih =>
    intro s hfresh hc hl
    have hfresh1 : ∀ r conn, RegAction.install r conn ∈ rest → conn ≠ c :=
      fun r conn hm => hfresh r conn (List.mem_cons_of_mem _ hm)
    have hstep : c ∉ (regStep s a).conns.map Prod.snd ∧
        ∀ payload, RegEvent.command c payload ∉ (regStep s a).log := by
      cases a with
      | install r conn =>
        have hne : conn ≠ c := hfresh r conn (List.mem_cons_self _ _)
        simp only [regStep]
        cases hlk : lookupConn s.conns r with
        | some old =>
          constructor
          · intro hmem
            rcases mem_values_insertConn s.conns r conn c hmem with h1 | h1
            · exact hne h1.symm
            · exact hc h1
          · intro payload hmem
            simp only [List.mem_append, List.mem_singleton] at hmem
            rcases hmem with h1 | h1
            · exact hl payload h1
            · cases h1
        | none =>
          constructor
          · intro hmem
            rcases mem_values_insertConn s.conns r conn c hmem with h1 | h1
            · exact hne h1.symm
            · exact hc h1
          · intro payload hmem
            exact hl payload hmem
      | sendCommand r payload0 =>
        simp only [regStep]
        cases hlk : lookupConn s.conns r with
        | some c0 =>
          constructor
          · intro hmem
            exact hc hmem
          · intro payload hmem
            simp only [List.mem_append, List.mem_singleton] at hmem
            rcases hmem with h1 | h1
            · exact hl payload h1
            · have hv : c0 ∈ s.conns.map Prod.snd := lookupConn_mem_values s.conns r c0 hlk
              have hcc : c = c0 := by injection h1 with h2 h3
              exact hc (hcc ▸ hv)
        | none =>
          exact ⟨hc, hl⟩
      | closeWs r =>
        simp only [regStep]
        cases hlk : lookupConn s.conns r with
        | some c0 =>
          constructor
          · intro hmem
            exact hc hmem
          · intro payload hmem
            simp only [List.mem_append, List.mem_singleton] at hmem
            rcases hmem with h1 | h1
            · exact hl payload h1
            · cases h1
        | none =>
          exact ⟨hc, hl⟩
      | remove r =>
        simp only [regStep]
        constructor
        · intro hmem
          exact hc (((removeConn_sublist s.conns r).map Prod.snd).subset hmem)
        · intro payload hmem
          exact hl payload hmem
    have hrun : regRunFrom s (a :: rest) = regRunFrom (regStep s a) rest := rfl
    rw [hrun]
    exact ih (regStep s a) hfresh1 hstep.1 hstep.2

/-- C3: in the atomic-critical-section model of the registry (the source
holds the registry write lock across insert-and-close-old, and the command
fan-in sends under the read lock), (a) the registry never holds two
connections for one runner id, and (b) when an install for runner `r`
displaces a previously registered connection `cOld`, the displaced
connection is sent the `ws.new_runner_connected` close frame at the moment
of installation, and every command frame the fan-in ever writes to the
newly installed (fresh) connection `c` comes strictly later in the outbound
log. -/
theorem c3_single_conn_and_close_before_command (acts1 acts2 : List RegAction)
    (r : RunnerId) (c cOld : ConnId)
    (hfresh : ∀ r0 conn, RegAction.install r0 conn ∈ acts1 → conn ≠ c)
    (hprev : lookupConn (regRun acts1).conns r = some cOld) :
    (∀ acts : List RegAction, ((regRun acts).conns.map Prod.fst).Nodup) ∧
    ∃ rest, (regRun (acts1 ++ RegAction.install r c :: acts2)).log
        = (regRun acts1).log ++ RegEvent.closed cOld newRunnerClosedFrame :: rest
      ∧ ∀ payload, RegEvent.command c payload ∉ (regRun acts1).log := by
  constructor
  · exact nodup_keys_regRun
  · have hsplit : regRun (acts1 ++ RegAction.install r c :: acts2)
        = regRunFrom (regStep (regRun acts1) (RegAction.install r c)) acts2 := by
      unfold regRun regRunFrom
      rw [List.foldl_append]
      rfl
    have hstep : (regStep (regRun acts1) (RegAction.install r c)).log
        = (regRun acts1).log ++ [RegEvent.closed cOld newRunnerClosedFrame] := by
      simp only [regStep, hprev]
    obtain ⟨t, ht⟩ := regRunFrom_log acts2 (regStep (regRun acts1) (RegAction.install r c))
    refine ⟨t, ?_, ?_⟩
    · rw [hsplit, ht, hstep, List.append_assoc]
      rfl
    · have hinit : c ∉ (({ conns := [], log := [] } : RegState)).conns.map Prod.snd := by simp
      have hinitlog : ∀ payload,
          RegEvent.command c payload ∉ (({ conns := [], log := [] } : RegState)).log := by
        intro payload
        simp
      exact (fresh_untouched c acts1 { conns := [], log := [] } hfresh hinit hinitlog).2

/-- Witness for C3: install connection 10 under runner 1, then install
connection 20 under the same runner and send runner 1 a command: the log
shows the close frame to 10 first, and no command to 20 precedes it. -/
theorem c3_single_conn_and_close_before_command_witness :
    (∀ r0 conn, RegAction.install r0 conn ∈ [RegAction.install 1 10] → conn ≠ 20) ∧
    lookupConn (regRun [RegAction.install 1 10]).conns 1 = some 10 ∧
    ((∀ acts : List RegAction, ((regRun acts).conns.map Prod.fst).Nodup) ∧
    ∃ rest, (regRun ([RegAction.install 1 10]
          ++ RegAction.install 1 20 :: [RegAction.sendCommand 1 5])).log
        = (regRun [RegAction.install 1 10]).log
            ++ RegEvent.closed 10 newRunnerClosedFrame :: rest
      ∧ ∀ payload, RegEvent.command 20 payload ∉ (regRun [RegAction.install 1 10]).log) := by
  have h1 : ∀ r0 conn, RegAction.install r0 conn ∈ [RegAction.install 1 10] → conn ≠ 20 := by
    intro r0 conn hm
    simp only [List.mem_singleton] at hm
    injection hm with h2 h3
    subst h3
    decide
  have h2 : lookupConn (regRun [RegAction.install 1 10]).conns 1 = some 10 := by decide
  exact ⟨h1, h2,
    c3_single_conn_and_close_before_command [RegAction.install 1 10]
      [RegAction.sendCommand 1 5] 1 20 10 h1 h2⟩
